import Mathlib

/-!
# git-mirror: the smart-HTTP gateway and the mirror scheduler

A shallow embedding of `config.go`, `git-http-backend.go` and `main.go`.

* A Go `string` (and a `[]byte`) is the list of its bytes, each byte written as the character
  with the same code; `len` is `List.length`.  All text the program itself produces is ASCII.
* Go `int`/`int64` values are integers; `wrapInt64` is applied where the source can overflow.
* Everything outside the repository (the file system, the git binary, the clock,
  `http.ServeFile`, `path.Join`, the mirror updater) is a field of `World` or a parameter.
-/

namespace GitMirror

/-- A Go string: its bytes in order. -/
abbrev GoString := List Char

/-! ## Go library functions used by the source -/

/-- Two's-complement wrap-around of a 64-bit signed integer. -/
def wrapInt64 (x : Int) : Int := (x + 9223372036854775808) % 18446744073709551616 - 9223372036854775808

/-- The digit table of `strconv`. -/
def digits : GoString := "0123456789abcdefghijklmnopqrstuvwxyz".toList

/-- The loop of `strconv.formatBits`: the low digit is written in front of `acc` and the value
divided by the base, as long as `u >= b`; the last digit is written on leaving. -/
def formatBits (b : Nat) : Nat → Nat → GoString → GoString
  | 0, u, acc => digits.getD u '0' :: acc
  | fuel + 1, u, acc =>
    if u ≥ b then formatBits b fuel (u / b) (digits.getD (u % b) '0' :: acc)
    else digits.getD u '0' :: acc

/-- The call `strconv.FormatInt(int64(n), 16)` for a non-negative `n`.  The loop runs once per
hex digit, so `n` steps of fuel are always enough. -/
def FormatInt16 (n : Nat) : GoString := formatBits 16 n n []

/-- The verb `%d` of `fmt.Sprintf` on an integer: an optional minus sign and the decimal
digits. -/
def sprintfD (x : Int) : GoString :=
  if x < 0 then '-' :: formatBits 10 x.natAbs x.natAbs [] else formatBits 10 x.natAbs x.natAbs []

/-- The loop of `strings.Replace(s, old, new, n)`: the first `n` non-overlapping occurrences of
`old` are replaced by `new`, all of them when `n < 0`. -/
def replaceLoop (old new : GoString) : Nat → Int → GoString → GoString
  | 0, _, s => s
  | fuel + 1, n, s =>
    if n = 0 then s
    else if old.isPrefixOf s then
      match old, s with
      | [], [] => new
      | [], c :: t => new ++ c :: replaceLoop old new fuel (n - 1) t
      | _ :: _, _ => new ++ replaceLoop old new fuel (n - 1) (s.drop old.length)
    else
      match s with
      | [] => []
      | c :: t => c :: replaceLoop old new fuel n t

/-- The function `strings.Replace`. -/
def stringsReplace (s old new : GoString) (n : Int) : GoString :=
  replaceLoop old new (s.length + 1) n s

/-! ## Data model (`config.go`) -/

/-- The struct `SmartConfig`. -/
structure SmartConfig where
  AuthPassEnvVar : GoString
  AuthUserEnvVar : GoString
  DefaultEnv : GoString
  ProjectRoot : GoString
  GitBinPath : GoString
  UploadPack : Bool
  ReceivePack : Bool
  deriving DecidableEq, Repr

/-- The initial value of the package variable `smartconfig`. -/
def smartconfig : SmartConfig where
  AuthPassEnvVar := []
  AuthUserEnvVar := []
  DefaultEnv := []
  ProjectRoot := "/tmp".toList
  GitBinPath := "/usr/bin/git".toList
  UploadPack := true
  ReceivePack := true

/-- An `http.Header`, restricted to what the source does with it: one value per key, the keys
being the canonical names the source writes. -/
structure Header where
  entries : List (GoString × GoString)
  deriving DecidableEq, Repr

/-- The method `Header.Get`: the value stored under the key, the empty string when absent. -/
def Header.Get (h : Header) (key : GoString) : GoString :=
  match h.entries.find? (fun kv => kv.1 == key) with
  | some kv => kv.2
  | none => []

/-- The method `Header.Set`: the entry for the key is replaced. -/
def Header.Set (h : Header) (key value : GoString) : Header :=
  ⟨(key, value) :: h.entries.filter (fun kv => kv.1 != key)⟩

/-- The fields of `*http.Request` the source reads. -/
structure Request where
  Method : GoString
  Proto : GoString
  /-- The field `r.URL.Path`. -/
  Path : GoString
  Header : Header
  /-- The parsed form, as read by `r.FormValue`. -/
  Form : List (GoString × GoString)
  /-- The result of `r.BasicAuth()`: user and password when the request carries credentials. -/
  BasicAuth : Option (GoString × GoString)
  deriving DecidableEq, Repr

/-- The method `r.FormValue`: the first value of the named component, else the empty string. -/
def Request.FormValue (r : Request) (key : GoString) : GoString :=
  match r.Form.find? (fun kv => kv.1 == key) with
  | some kv => kv.2
  | none => []

/-- An `http.ResponseWriter`: the live header map, the status line and headers frozen by the
first `WriteHeader`, and the body written so far. -/
structure ResponseWriter where
  header : Header
  wrote : Option (Nat × Header)
  body : GoString
  deriving DecidableEq, Repr

/-- A fresh response writer. -/
def ResponseWriter.new : ResponseWriter := ⟨⟨[]⟩, none, []⟩

/-- The call `w.Header().Set(key, value)`. -/
def ResponseWriter.SetHeader (w : ResponseWriter) (key value : GoString) : ResponseWriter :=
  { w with header := w.header.Set key value }

/-- The method `WriteHeader`: the first call fixes the status and the headers sent. -/
def ResponseWriter.WriteHeader (w : ResponseWriter) (code : Nat) : ResponseWriter :=
  match w.wrote with
  | some _ => w
  | none => { w with wrote := some (code, w.header) }

/-- The method `Write`: an implicit `WriteHeader(200)` when none was made, then the bytes. -/
def ResponseWriter.Write (w : ResponseWriter) (b : GoString) : ResponseWriter :=
  let w1 := w.WriteHeader 200
  { w1 with body := w1.body ++ b }

/-- The status code of the response, once it is on the wire. -/
def ResponseWriter.status (w : ResponseWriter) : Option Nat := w.wrote.map (fun p => p.1)

/-- The headers the response carries: the ones frozen by `WriteHeader`, or the live map when
the handler returned without writing (the server then sends them with a 200). -/
def ResponseWriter.sent (w : ResponseWriter) : Header :=
  match w.wrote with
  | some p => p.2
  | none => w.header

/-- An `exec.Cmd` as built by the source; `Env = none` is Go's nil slice (the child inherits the
environment of the server). -/
structure Cmd where
  Path : GoString
  Args : List GoString
  Env : Option (List GoString)
  Dir : GoString
  deriving DecidableEq, Repr

/-- The three outcomes of `os.Stat` the source distinguishes. -/
inductive StatResult where
  | ok (size : Nat) (modTime : GoString)
  | notExist
  | otherErr
  deriving DecidableEq, Repr

/-- Everything outside the program that a request can observe. -/
structure World where
  /-- The result of `os.Environ()`. -/
  environ : List GoString
  /-- The bytes `(*exec.Cmd).Output` returns for a command. -/
  output : Cmd → GoString
  /-- The result of `os.Stat`. -/
  stat : GoString → StatResult
  /-- The result of `os.Getwd`, `none` on error. -/
  getwd : Option GoString
  /-- The function `path.Join` on two elements. -/
  pathJoin : GoString → GoString → GoString
  /-- The effect of `http.ServeFile` on the response writer. -/
  serveFile : ResponseWriter → Request → GoString → ResponseWriter
  /-- The value of `time.Now().Unix()`. -/
  now : Int

/-! ## Packet-line codec (`git-http-backend.go`) -/

/-- The function `packetFlush`. -/
def packetFlush : GoString := "0000".toList

/-- The function `packetWrite`. -/
def packetWrite (str : GoString) : GoString :=
  let s := FormatInt16 (str.length + 4)
  let s := if s.length % 4 ≠ 0 then List.replicate (4 - s.length % 4) '0' ++ s else s
  s ++ str

/-! ## Subprocess helpers and access control (`git-http-backend.go`) -/

/-- The command `gitCommand` builds before running it. -/
def gitCommandCmd (cfg : SmartConfig) (world : World) (dir version : GoString)
    (args : List GoString) : Cmd where
  Path := cfg.GitBinPath
  Args := args
  Env := if version.length > 0 then some (world.environ ++ ["GIT_PROTOCOL=".toList ++ version])
         else none
  Dir := dir

/-- The function `gitCommand`: the output of the command (an error is only logged). -/
def gitCommand (cfg : SmartConfig) (world : World) (dir version : GoString)
    (args : List GoString) : GoString :=
  world.output (gitCommandCmd cfg world dir version args)

/-- The function `getGitConfig`; `none` is the run-time panic of `out[0 : len(out)-1]` on an
empty output. -/
def getGitConfig (cfg : SmartConfig) (world : World) (configName dir : GoString) :
    Option GoString :=
  let out := gitCommand cfg world dir [] ["smartconfig".toList, configName]
  if out.length = 0 then none else some (out.take (out.length - 1))

/-- The function `getConfigSetting`. -/
def getConfigSetting (cfg : SmartConfig) (world : World) (serviceName dir : GoString) :
    Option Bool :=
  let serviceName := stringsReplace serviceName "-".toList [] (-1)
  match getGitConfig cfg world ("http.".toList ++ serviceName) dir with
  | none => none
  | some setting =>
    if serviceName = "uploadpack".toList then some (setting ≠ "false".toList)
    else some (setting = "true".toList)

/-- The function `hasAccess`; `none` would be a panic inside `getConfigSetting`. -/
def hasAccess (cfg : SmartConfig) (world : World) (r : Request) (dir rpc : GoString)
    (checkContentType : Bool) : Option Bool :=
  if checkContentType ∧
      r.Header.Get "Content-Type".toList ≠ "application/x-git-".toList ++ rpc ++ "-request".toList
  then some false
  else if ¬ (rpc = "upload-pack".toList ∨ rpc = "receive-pack".toList) then some false
  else if rpc = "receive-pack".toList then some cfg.ReceivePack
  else if rpc = "upload-pack".toList then some cfg.UploadPack
  else getConfigSetting cfg world rpc dir

/-- The function `getServiceType`. -/
def getServiceType (r : Request) : GoString :=
  let serviceType := r.FormValue "service".toList
  if ¬ ("git-".toList).isPrefixOf serviceType then []
  else stringsReplace serviceType "git-".toList [] 1

/-! ## The route table (`config.go`) -/

/-- The handler functions a route can name. -/
inductive HandlerFunc where
  | serviceRPC
  | getInfoRefs
  | getTextFile
  | getInfoPacks
  | getLooseObject
  | getPackFile
  | getIdxFile
  deriving DecidableEq, Repr

/-- The struct `Service`. -/
structure Service where
  Method : GoString
  Handler : HandlerFunc
  RPC : GoString
  deriving DecidableEq, Repr

/-- The struct `HandlerReq`. -/
structure HandlerReq where
  w : ResponseWriter
  r : Request
  RPC : GoString
  Dir : GoString
  File : GoString
  deriving DecidableEq, Repr

/-- One piece of the part of a route pattern that follows the capture group. -/
inductive Item where
  /-- Literal text (a dot is written with a backslash in the pattern). -/
  | lit (s : GoString)
  /-- The piece `[0-9a-f]` repeated exactly `n` times. -/
  | hex (n : Nat)
  /-- The piece `[^/]*`. -/
  | notSlashStar
  deriving DecidableEq, Repr

/-- A compiled route pattern: the lazy capture group `(.*?)`, then the items, then `$`. -/
structure Pattern where
  items : List Item
  deriving DecidableEq, Repr

/-- The text of an item in the regular-expression syntax. -/
def Item.source : Item → GoString
  | .lit s => s.flatMap (fun c => if c = '.' then [Char.ofNat 92, '.'] else [c])
  | .hex n => "[0-9a-f]\x7b".toList ++ formatBits 10 n n [] ++ "\x7d".toList
  | .notSlashStar => "[^/]*".toList

/-- The text of a pattern: the key under which the route stands in the map `services`. -/
def Pattern.source (p : Pattern) : GoString :=
  "(.*?)".toList ++ p.items.flatMap Item.source ++ "$".toList

/-- The character class `[0-9a-f]`. -/
def isHexLower (c : Char) : Bool := ('0' ≤ c ∧ c ≤ '9') ∨ ('a' ≤ c ∧ c ≤ 'f')

/-- Whether the items match the whole of `s` (the pattern ends in `$`, and there is no
multi-line flag, so the match must end at the end of the text). -/
def matchItems : List Item → GoString → Bool
  | [], s => s.isEmpty
  | .lit l :: rest, s => l.isPrefixOf s && matchItems rest (s.drop l.length)
  | .hex n :: rest, s =>
    decide (n ≤ s.length) && (s.take n).all isHexLower && matchItems rest (s.drop n)
  | .notSlashStar :: rest, s =>
    (List.range (s.length + 1)).any
      (fun k => (s.take k).all (fun c => c != '/') && matchItems rest (s.drop k))

/-- A match attempt that starts at a fixed position: the lazy group `(.*?)` has taken `cap`
(in reverse) so far; it stops as soon as the rest of the pattern matches, and otherwise
takes one more character, which must not be a newline (`.` without the `s` flag). -/
def matchFrom (items : List Item) : GoString → GoString → Option GoString
  | cap, [] => if matchItems items [] then some cap.reverse else none
  | cap, c :: t =>
    if matchItems items (c :: t) then some cap.reverse
    else if c = '\n' then none
    else matchFrom items (c :: cap) t

/-- The leftmost match of an unanchored pattern: the start positions are tried from left to
right. -/
def searchFrom (items : List Item) : GoString → Option GoString
  | [] => matchFrom items [] []
  | c :: t =>
    match matchFrom items [] (c :: t) with
    | some m => some m
    | none => searchFrom items t

/-- The call `re.FindStringSubmatch(path)`, reduced to what the source reads of its result:
`none` for a nil result, otherwise the text `m[1]` of the capture group. -/
def Pattern.FindStringSubmatch (re : Pattern) (path : GoString) : Option GoString :=
  searchFrom re.items path

/-- The map `services`, its entries in the order of the source text.  Go ranges over a map in
an unspecified order, so the dispatcher below takes the order of iteration as an argument. -/
def services : List (Pattern × Service) :=
  [ (⟨[.lit "/git-upload-pack".toList]⟩, ⟨"POST".toList, .serviceRPC, "upload-pack".toList⟩),
    (⟨[.lit "/git-receive-pack".toList]⟩, ⟨"POST".toList, .serviceRPC, "receive-pack".toList⟩),
    (⟨[.lit "/info/refs".toList]⟩, ⟨"GET".toList, .getInfoRefs, []⟩),
    (⟨[.lit "/HEAD".toList]⟩, ⟨"GET".toList, .getTextFile, []⟩),
    (⟨[.lit "/objects/info/alternates".toList]⟩, ⟨"GET".toList, .getTextFile, []⟩),
    (⟨[.lit "/objects/info/http-alternates".toList]⟩, ⟨"GET".toList, .getTextFile, []⟩),
    (⟨[.lit "/objects/info/packs".toList]⟩, ⟨"GET".toList, .getInfoPacks, []⟩),
    (⟨[.lit "/objects/info/".toList, .notSlashStar]⟩, ⟨"GET".toList, .getTextFile, []⟩),
    (⟨[.lit "/objects/".toList, .hex 2, .lit "/".toList, .hex 38]⟩,
      ⟨"GET".toList, .getLooseObject, []⟩),
    (⟨[.lit "/objects/pack/pack-".toList, .hex 40, .lit ".pack".toList]⟩,
      ⟨"GET".toList, .getPackFile, []⟩),
    (⟨[.lit "/objects/pack/pack-".toList, .hex 40, .lit ".idx".toList]⟩,
      ⟨"GET".toList, .getIdxFile, []⟩) ]

/-! ## The dispatcher (`git-http-backend.go`) -/

/-- The function `renderMethodNotAllowed`. -/
def renderMethodNotAllowed (w : ResponseWriter) (r : Request) : ResponseWriter :=
  if r.Proto = "HTTP/1.1".toList then (w.WriteHeader 405).Write "Method Not Allowed".toList
  else (w.WriteHeader 400).Write "Bad Request".toList

/-- The function `renderNotFound`. -/
def renderNotFound (w : ResponseWriter) : ResponseWriter :=
  (w.WriteHeader 404).Write "Not Found".toList

/-- The function `renderNoAccess`. -/
def renderNoAccess (w : ResponseWriter) : ResponseWriter :=
  (w.WriteHeader 403).Write "Forbidden".toList

/-- The function `getGitDir`; `none` stands for a non-nil error. -/
def getGitDir (cfg : SmartConfig) (world : World) (filePath : GoString) : Option GoString :=
  match (if cfg.ProjectRoot = [] then world.getwd else some cfg.ProjectRoot) with
  | none => none
  | some root =>
    let f := world.pathJoin root filePath
    if world.stat f = .notExist then none else some f

/-- What the closure returned by `requestHandler` does with a request: it answers by itself,
or it calls the handler of a route. -/
inductive Dispatch where
  | respond (w : ResponseWriter)
  | invoke (handler : HandlerFunc) (hr : HandlerReq)
  deriving DecidableEq, Repr

/-- The closure returned by `requestHandler`, the range over `services` visiting the entries
in the order of the list given. -/
def requestHandler (cfg : SmartConfig) (world : World) (w : ResponseWriter) (r : Request) :
    List (Pattern × Service) → Dispatch
  | [] => .respond (renderNotFound w)
  | (re, service) :: rest =>
    match re.FindStringSubmatch r.Path with
    | some m1 =>
      if service.Method ≠ r.Method then .respond (renderMethodNotAllowed w r)
      else
        let rpc := service.RPC
        let file := stringsReplace r.Path (m1 ++ "/".toList) [] 1
        match getGitDir cfg world m1 with
        | none => .respond (renderNotFound w)
        | some dir => .invoke service.Handler ⟨w, r, rpc, dir, file⟩
    | none => requestHandler cfg world w r rest

/-! ## Header policies and handlers (`git-http-backend.go`) -/

/-- The function `hdrNocache`. -/
def hdrNocache (w : ResponseWriter) : ResponseWriter :=
  ((w.SetHeader "Expires".toList "Fri, 01 Jan 1980 00:00:00 GMT".toList).SetHeader
    "Pragma".toList "no-cache".toList).SetHeader
    "Cache-Control".toList "no-cache, max-age=0, must-revalidate".toList

/-- The function `hdrCacheForever`; `now` and `expires` are `int64`. -/
def hdrCacheForever (world : World) (w : ResponseWriter) : ResponseWriter :=
  let now := world.now
  let expires := wrapInt64 (now + 31536000)
  ((w.SetHeader "Date".toList (sprintfD now)).SetHeader
    "Expires".toList (sprintfD expires)).SetHeader
    "Cache-Control".toList "public, max-age=31536000".toList

/-- The function `sendFile`; `none` is the nil dereference of `f.Size()` when `os.Stat` fails
with an error other than "does not exist". -/
def sendFile (world : World) (contentType : GoString) (hr : HandlerReq) :
    Option ResponseWriter :=
  let reqFile := world.pathJoin hr.Dir hr.File
  match world.stat reqFile with
  | .notExist => some (renderNotFound hr.w)
  | .otherErr => none
  | .ok size modTime =>
    let w := hr.w.SetHeader "Content-Type".toList contentType
    let w := w.SetHeader "Content-Length".toList (sprintfD size)
    let w := w.SetHeader "Last-Modified".toList modTime
    some (world.serveFile w hr.r reqFile)

/-- The function `updateServerInfo`. -/
def updateServerInfo (cfg : SmartConfig) (world : World) (dir : GoString) : GoString :=
  gitCommand cfg world dir [] ["update-server-info".toList]

/-- The function `getInfoRefs`. -/
def getInfoRefs (cfg : SmartConfig) (world : World) (hr : HandlerReq) : Option ResponseWriter :=
  let serviceName := getServiceType hr.r
  match hasAccess cfg world hr.r hr.Dir serviceName false with
  | none => none
  | some access =>
    let version := hr.r.Header.Get "Git-Protocol".toList
    if access then
      let args := [serviceName, "--stateless-rpc".toList, "--advertise-refs".toList, ".".toList]
      let refs := gitCommand cfg world hr.Dir version args
      let w := hdrNocache hr.w
      let w := w.SetHeader "Content-Type".toList
        ("application/x-git-".toList ++ serviceName ++ "-advertisement".toList)
      let w := w.WriteHeader 200
      let w := if version.length = 0 then
          (w.Write (packetWrite ("# service=git-".toList ++ serviceName ++ "\n".toList))).Write
            packetFlush
        else w
      some (w.Write refs)
    else
      let _ := updateServerInfo cfg world hr.Dir
      let w := hdrNocache hr.w
      sendFile world "text/plain; charset=utf-8".toList { hr with w := w }

/-- The function `getInfoPacks`. -/
def getInfoPacks (world : World) (hr : HandlerReq) : Option ResponseWriter :=
  sendFile world "text/plain; charset=utf-8".toList { hr with w := hdrCacheForever world hr.w }

/-- The function `getLooseObject`. -/
def getLooseObject (world : World) (hr : HandlerReq) : Option ResponseWriter :=
  sendFile world "application/x-git-loose-object".toList
    { hr with w := hdrCacheForever world hr.w }

/-- The function `getPackFile`. -/
def getPackFile (world : World) (hr : HandlerReq) : Option ResponseWriter :=
  sendFile world "application/x-git-packed-objects".toList
    { hr with w := hdrCacheForever world hr.w }

/-- The function `getIdxFile`. -/
def getIdxFile (world : World) (hr : HandlerReq) : Option ResponseWriter :=
  sendFile world "application/x-git-packed-objects-toc".toList
    { hr with w := hdrCacheForever world hr.w }

/-- The function `getTextFile`. -/
def getTextFile (world : World) (hr : HandlerReq) : Option ResponseWriter :=
  sendFile world "text/plain".toList { hr with w := hdrNocache hr.w }

/-- The state of `serviceRPC` at `cmd.Start()`: the response writer, and the command about to
be started (`none` when access was denied and no subprocess is made). -/
structure RPCStart where
  w : ResponseWriter
  cmd : Option Cmd
  deriving DecidableEq, Repr

/-- The function `serviceRPC` up to `cmd.Start()`; the copy of the request body to the
subprocess and of its output to the response is not part of the model. -/
def serviceRPC (cfg : SmartConfig) (world : World) (hr : HandlerReq) : Option RPCStart :=
  let rpc := hr.RPC
  let dir := hr.Dir
  match hasAccess cfg world hr.r dir rpc true with
  | none => none
  | some false => some ⟨renderNoAccess hr.w, none⟩
  | some true =>
    let w := hr.w.SetHeader "Content-Type".toList
      ("application/x-git-".toList ++ rpc ++ "-result".toList)
    let w := w.SetHeader "Connection".toList "Keep-Alive".toList
    let w := w.SetHeader "Transfer-Encoding".toList "chunked".toList
    let w := w.SetHeader "X-Content-Type-Options".toList "nosniff".toList
    let w := w.WriteHeader 200
    let env : List GoString := []
    let env := if cfg.DefaultEnv ≠ [] then env ++ [cfg.DefaultEnv] else env
    let env :=
      match hr.r.BasicAuth with
      | some (user, password) =>
        let env := if cfg.AuthUserEnvVar ≠ [] then
            env ++ [cfg.AuthUserEnvVar ++ "=".toList ++ user] else env
        if cfg.AuthPassEnvVar ≠ [] then
          env ++ [cfg.AuthPassEnvVar ++ "=".toList ++ password] else env
      | none => env
    let args := [rpc, "--stateless-rpc".toList, dir]
    let cmd : Cmd := ⟨cfg.GitBinPath, args, none, []⟩
    let version := hr.r.Header.Get "Git-Protocol".toList
    let cmd := if version.length ≠ 0 then
        { cmd with Env := some (world.environ ++ ["GIT_PROTOCOL=".toList ++ version]) }
      else cmd
    let cmd := { cmd with Dir := dir }
    let cmd := { cmd with Env := some env }
    some ⟨w, some cmd⟩

/-- The environment the child process of a command receives: the list in `Env`, or the
environment of the server when `Env` is nil. -/
def Cmd.environment (world : World) (cmd : Cmd) : List GoString :=
  match cmd.Env with
  | some env => env
  | none => world.environ

/-! ## The mirror scheduler (`main.go`) -/

/-- What one refresh loop does that can be seen from outside: a call of `mirror`, or a call
of `time.Sleep` with a duration in nanoseconds. -/
inductive Event where
  | mirror
  | sleep (d : Int)
  deriving DecidableEq, Repr

/-- The constant `time.Second`, in nanoseconds. -/
def Second : Int := 1000000000

/-- The state of one refresh loop: the shared variable `Counter`, the number of calls of
`mirror` made so far, and the events so far, oldest first. -/
structure Run where
  Counter : Int
  calls : Nat
  events : List Event
  deriving DecidableEq, Repr

/-- A call `time.Sleep(d)`. -/
def Run.sleep (s : Run) (d : Int) : Run := { s with events := s.events ++ [.sleep d] }

/-- A call `mirror(cfg, r)`: `mirrorErr k` tells whether the call number `k` (from 0) returns
an error.  The result is the error flag and the new state. -/
def Run.mirror (mirrorErr : Nat → Bool) (s : Run) : Bool × Run :=
  (mirrorErr s.calls, { s with calls := s.calls + 1, events := s.events ++ [.mirror] })

/-- The loop `for i := 1; i < Retries+1; i++`, entered with the current `i`; `bound` is the
value of `Retries+1`.  The result is `none` when the fuel runs out before the loop ends. -/
def retryLoop (mirrorErr : Nat → Bool) (bound : Int) : Nat → Int → Run → Option Run
  | 0, i, s => if i < bound then none else some s
  | fuel + 1, i, s =>
    if i < bound then
      let s1 := s.sleep (wrapInt64 (i * Second))
      let (err, s2) := s1.mirror mirrorErr
      if err = false then some s2
      else retryLoop mirrorErr bound fuel (wrapInt64 (i + 1)) s2
    else some s

/-- One pass through the body of the endless loop of a refresh goroutine, run alone.
`Retries` is the value `strconv.Atoi(cfg.Retries)` gives and `interval` is
`r.Interval.Duration`. -/
def iteration (Retries interval : Int) (mirrorErr : Nat → Bool) (fuel : Nat) (s : Run) :
    Option Run :=
  if s.Counter > 0 then
    let s1 := { s with Counter := wrapInt64 (s.Counter - 1) }
    let (err, s2) := s1.mirror mirrorErr
    let s3 := if err then retryLoop mirrorErr (wrapInt64 (Retries + 1)) fuel 1 s2 else some s2
    match s3 with
    | none => none
    | some s4 => some ({ s4 with Counter := wrapInt64 (s4.Counter + 1) }.sleep interval)
  else some (s.sleep (30 * Second))

/-- Where a refresh goroutine stands with respect to `Counter`: at the head of the loop (or
asleep); past the test `Counter > 0` but before `Counter--`; or past `Counter--` and before
`Counter++`, the refresh in progress. -/
inductive Pc where
  | idle
  | tested
  | working
  deriving DecidableEq, Repr

/-- The goroutines of `main` over the shared `Counter`. -/
structure Sched where
  Counter : Int
  pcs : List Pc
  deriving DecidableEq, Repr

/-- The state after `Counter, _ := strconv.Atoi(cfg.Counter)` and the start of one goroutine
per repository. -/
def Sched.init (budget : Int) (repos : Nat) : Sched := ⟨budget, List.replicate repos .idle⟩

/-- One atomic step of goroutine `j`: the test `Counter > 0` (on failure the goroutine sleeps
and stays at the head of the loop), the statement `Counter--`, or the statement `Counter++`
that ends the refresh. -/
def Sched.step (s : Sched) (j : Nat) : Sched :=
  match s.pcs.get? j with
  | none => s
  | some .idle => if s.Counter > 0 then { s with pcs := s.pcs.set j .tested } else s
  | some .tested => { Counter := s.Counter - 1, pcs := s.pcs.set j .working }
  | some .working => { Counter := s.Counter + 1, pcs := s.pcs.set j .idle }

/-- The state after the goroutines have taken their steps in the order of the schedule. -/
def Sched.run (s : Sched) (schedule : List Nat) : Sched := schedule.foldl Sched.step s

/-- The number of goroutines with a refresh in progress. -/
def Sched.inProgress (s : Sched) : Nat := s.pcs.count .working


/-! ## Specification-side definitions -/

/-- The decision table of access control, in the words of the specification: with the
content-type check on, a `Content-Type` other than `application/x-git-<rpc>-request` is
refused; `upload-pack` and `receive-pack` follow their global flags; any other name is
refused. -/
def accessTable (cfg : SmartConfig) (contentType rpc : GoString) (checkContentType : Bool) :
    Bool :=
  if checkContentType = true ∧
      contentType ≠ "application/x-git-".toList ++ rpc ++ "-request".toList then false
  else if rpc = "upload-pack".toList then cfg.UploadPack
  else if rpc = "receive-pack".toList then cfg.ReceivePack
  else false

/-- The lowercase hexadecimal digit of a value below 16. -/
def hexDigitChar (d : Nat) : Char := if d < 10 then Char.ofNat (48 + d) else Char.ofNat (87 + d)

/-- The lowercase hexadecimal representation of a positive number, most significant digit
first. -/
def hexRepr (n : Nat) : GoString := (Nat.digits 16 n).reverse.map hexDigitChar

/-- The length field of the specification: the hexadecimal representation, left-padded with
`'0'` to the smallest length that is a multiple of 4 digits. -/
def lengthField (n : Nat) : GoString :=
  List.replicate (4 * (((hexRepr n).length + 3) / 4) - (hexRepr n).length) '0' ++ hexRepr n

/-- The value of a lowercase hexadecimal digit. -/
def hexVal (c : Char) : Option Nat :=
  if '0' ≤ c ∧ c ≤ '9' then some (c.toNat - 48)
  else if 'a' ≤ c ∧ c ≤ 'f' then some (c.toNat - 87)
  else none

/-- Reading of a lowercase hexadecimal numeral, continuing from the value `acc`. -/
def parseHexFrom : Nat → GoString → Option Nat
  | acc, [] => some acc
  | acc, c :: t =>
    match hexVal c with
    | some d => parseHexFrom (16 * acc + d) t
    | none => none

/-- The number a lowercase hexadecimal numeral encodes, `none` when a character is not a
hexadecimal digit. -/
def parseHex (s : GoString) : Option Nat := parseHexFrom 0 s

/-- What the retries number `1` to `k` show when each is made: the sleep
`time.Sleep(time.Duration(i) * time.Second)` and then the call of `mirror`. -/
def retryEvents (k : Nat) : List Event :=
  (List.range' 1 k).flatMap (fun i => [Event.sleep (wrapInt64 ((i : Int) * Second)), Event.mirror])

/-! ## Concrete inputs -/

/-- A world in which every path exists, `path.Join` puts a slash between its arguments, the
git binary prints nothing and `http.ServeFile` answers 200 with an empty body. -/
def exampleWorld : World where
  environ := ["PATH=/usr/bin".toList]
  output := fun _ => []
  stat := fun _ => .ok 0 []
  getwd := some "/".toList
  pathJoin := fun a b => a ++ "/".toList ++ b
  serveFile := fun w _ _ => w.WriteHeader 200
  now := 1700000000

/-- A request with the given method, protocol and path, without headers, form or
credentials. -/
def plainRequest (method proto path : String) : Request where
  Method := method.toList
  Proto := proto.toList
  Path := path.toList
  Header := ⟨[]⟩
  Form := []
  BasicAuth := none

/-- A POST of `repo/git-upload-pack` with the content type of the RPC and the header
`Git-Protocol: version=2`, without credentials. -/
def uploadPackPost : Request where
  Method := "POST".toList
  Proto := "HTTP/1.1".toList
  Path := "repo/git-upload-pack".toList
  Header := ⟨[("Content-Type".toList, "application/x-git-upload-pack-request".toList),
    ("Git-Protocol".toList, "version=2".toList)]⟩
  Form := []
  BasicAuth := none

/-- A GET of `repo/info/refs?service=git-upload-pack` without a `Git-Protocol` header. -/
def infoRefsGet : Request where
  Method := "GET".toList
  Proto := "HTTP/1.1".toList
  Path := "repo/info/refs".toList
  Header := ⟨[]⟩
  Form := [("service".toList, "git-upload-pack".toList)]
  BasicAuth := none

/-- A world like `exampleWorld` in which the git binary prints a line that names the
directory it runs in and its first argument, followed by `v2` when it is given an
environment of its own. -/
def advertisingWorld : World where
  environ := ["PATH=/usr/bin".toList]
  output := fun cmd =>
    "refs of ".toList ++ cmd.Dir ++ ": ".toList ++ cmd.Args.headD [] ++
      (match cmd.Env with
       | none => []
       | some _ => " v2".toList) ++ "\n".toList
  stat := fun _ => .ok 0 []
  getwd := some "/".toList
  pathJoin := fun a b => a ++ "/".toList ++ b
  serveFile := fun w _ _ => w.WriteHeader 200
  now := 1700000000

theorem digits_getD_eq_hexDigitChar (d : Nat) (h : d < 16) : digits.getD d '0' = hexDigitChar d := by
  interval_cases d <;> rfl

theorem hexVal_hexDigitChar (d : Nat) (h : d < 16) : hexVal (hexDigitChar d) = some d := by
  interval_cases d <;> rfl

theorem formatBits_eq_digits (b : Nat) (hb : 2 ≤ b) (fuel : Nat) :
    ∀ (u : Nat) (acc : GoString), 0 < u → u ≤ fuel →
      formatBits b fuel u acc = (Nat.digits b u).reverse.map (fun d => digits.getD d '0') ++ acc := by
  induction fuel with
  | zero => intro u acc h0 h1; omega
  | succ fuel ih =>
    intro u acc h0 h1
    rw [Nat.digits_def' (by omega) h0]
    by_cases hu : u ≥ b
    · have hq : 0 < u / b := Nat.div_pos hu (by omega)
      have hq2 : u / b ≤ fuel := by
        have : u / b < u := Nat.div_lt_self h0 (by omega)
        omega
      simp only [formatBits, hu, if_true, ih (u / b) _ hq hq2]
      simp
    · have hdiv : u / b = 0 := Nat.div_eq_of_lt (by omega)
      have hmod : u % b = u := Nat.mod_eq_of_lt (by omega)
      simp [formatBits, hu, hdiv, hmod]

theorem FormatInt16_eq_hexRepr (n : Nat) (h : 0 < n) : FormatInt16 n = hexRepr n := by
  unfold FormatInt16 hexRepr
  rw [formatBits_eq_digits 16 (by omega) n n [] h (le_refl n), List.append_nil]
  apply List.map_congr_left
  intro d hd
  exact digits_getD_eq_hexDigitChar d (Nat.digits_lt_base (by omega) (List.mem_reverse.mp hd))

theorem packetWrite_eq_lengthField (P : GoString) :
    packetWrite P = lengthField (P.length + 4) ++ P := by
  unfold packetWrite lengthField
  rw [FormatInt16_eq_hexRepr _ (by omega)]
  simp only
  congr 1
  split
  · congr 2
    omega
  · have : 4 * (((hexRepr (P.length + 4)).length + 3) / 4) - (hexRepr (P.length + 4)).length = 0 := by
      omega
    rw [this]
    rfl

theorem parseHexFrom_zeros (k : Nat) (s : GoString) :
    parseHexFrom 0 (List.replicate k '0' ++ s) = parseHexFrom 0 s := by
  induction k with
  | zero => rfl
  | succ k ih =>
    rw [List.replicate_succ, List.cons_append, parseHexFrom]
    have : hexVal '0' = some 0 := by rfl
    simp only [this, Nat.mul_zero, Nat.add_zero]
    exact ih

theorem parseHexFrom_digits (l : List Nat) (hl : ∀ d ∈ l, d < 16) :
    ∀ (acc : Nat) (rest : GoString),
      parseHexFrom acc (l.reverse.map hexDigitChar ++ rest) =
        parseHexFrom (acc * 16 ^ l.length + Nat.ofDigits 16 l) rest := by
  induction l with
  | nil => intro acc rest; simp [Nat.ofDigits]
  | cons d l ih =>
    intro acc rest
    have hd : d < 16 := hl d (List.mem_cons_self _ _)
    have hl2 : ∀ x ∈ l, x < 16 := fun x hx => hl x (List.mem_cons_of_mem _ hx)
    rw [List.reverse_cons, List.map_append, List.append_assoc, ih hl2]
    simp only [List.map_cons, List.map_nil, List.singleton_append, parseHexFrom,
      hexVal_hexDigitChar d hd, Nat.ofDigits_cons, List.length_cons]
    congr 1
    rw [pow_succ]
    ring

theorem parseHex_lengthField (n : Nat) : parseHex (lengthField n) = some n := by
  unfold parseHex lengthField
  rw [parseHexFrom_zeros]
  have := parseHexFrom_digits (Nat.digits 16 n) (fun d hd => Nat.digits_lt_base (by omega) hd) 0 []
  simp only [List.append_nil, Nat.zero_mul, Nat.zero_add, Nat.ofDigits_digits] at this
  unfold hexRepr
  rw [this]
  rfl

theorem hexRepr_length_le_four (n : Nat) (h0 : 0 < n) (h : n < 65536) :
    (hexRepr n).length ≤ 4 := by
  unfold hexRepr
  rw [List.length_map, List.length_reverse]
  by_contra hlen
  have h5 : 16 ^ 5 ≤ 16 ^ (Nat.digits 16 n).length := Nat.pow_le_pow_right (by omega) (by omega)
  have hle := Nat.base_pow_length_digits_le 16 n (by omega) (by omega)
  norm_num at h5
  omega

theorem hexRepr_length_pos (n : Nat) (h : 0 < n) : 0 < (hexRepr n).length := by
  unfold hexRepr
  rw [List.length_map, List.length_reverse]
  exact List.length_pos.mpr (Nat.digits_ne_nil_iff_ne_zero.mpr (by omega))

theorem lengthField_length_small (n : Nat) (h0 : 0 < n) (h : n < 65536) :
    (lengthField n).length = 4 := by
  have h1 := hexRepr_length_le_four n h0 h
  have h2 := hexRepr_length_pos n h0
  unfold lengthField
  rw [List.length_append, List.length_replicate]
  omega

theorem FormatInt16_65536 : FormatInt16 65536 = "10000".toList := by decide

theorem packetWrite_65532 :
    packetWrite (List.replicate 65532 'a') = "00010000".toList ++ List.replicate 65532 'a' := by
  unfold packetWrite
  rw [List.length_replicate, show 65532 + 4 = 65536 from rfl, FormatInt16_65536]
  rfl

/-! ## Access control -/

theorem hasAccess_some_accessTable (cfg : SmartConfig) (world : World) (r : Request)
    (dir rpc : GoString) (checkContentType : Bool) :
    hasAccess cfg world r dir rpc checkContentType =
      some (accessTable cfg (r.Header.Get "Content-Type".toList) rpc checkContentType) := by
  unfold hasAccess accessTable
  by_cases hct : checkContentType = true ∧ r.Header.Get "Content-Type".toList ≠
      "application/x-git-".toList ++ rpc ++ "-request".toList
  · rw [if_pos hct, if_pos hct]
  · rw [if_neg hct, if_neg hct]
    by_cases hu : rpc = "upload-pack".toList
    · subst hu
      simp
    · by_cases hr : rpc = "receive-pack".toList
      · subst hr
        simp
      · rw [if_pos (fun h => h.elim hu hr), if_neg hu, if_neg hr]

/-- C1: for every configuration, world, request, repository directory, RPC name and value of
`checkContentType`, `hasAccess` returns (without panic) the value of the decision table
`accessTable`, which reads only the `Content-Type` header, the RPC name and the two global
flags; so the result depends neither on the directory nor on the git subprocess, and
`getConfigSetting` is never reached. -/
theorem hasAccess_eq_accessTable (cfg : SmartConfig) (world : World) (r : Request)
    (dir rpc : GoString) (checkContentType : Bool) :
    hasAccess cfg world r dir rpc checkContentType =
        some (accessTable cfg (r.Header.Get "Content-Type".toList) rpc checkContentType) ∧
      ∀ (world2 : World) (dir2 : GoString),
        hasAccess cfg world2 r dir2 rpc checkContentType =
          hasAccess cfg world r dir rpc checkContentType :=
  ⟨hasAccess_some_accessTable cfg world r dir rpc checkContentType, fun world2 dir2 => by
    rw [hasAccess_some_accessTable cfg world2 r dir2, hasAccess_some_accessTable cfg world r dir]⟩

/-! ## Packet-line codec -/

/-- C4: for every payload `P`, `packetWrite P` is the length field of `len(P)+4` followed by
the bytes of `P`; the length field is the lowercase hexadecimal representation of `len(P)+4`
left-padded with `'0'`, its length is a multiple of 4 and less than 4 more than the number of
hexadecimal digits (the smallest such multiple), and it reads back as `len(P)+4`.  For the
26-byte payload `"# service=git-upload-pack\n"` the result starts with `"001e"`. -/
theorem packetWrite_spec :
    (∀ P : GoString,
      packetWrite P = lengthField (P.length + 4) ++ P ∧
      (lengthField (P.length + 4)).length % 4 = 0 ∧
      (lengthField (P.length + 4)).length < (hexRepr (P.length + 4)).length + 4 ∧
      parseHex (lengthField (P.length + 4)) = some (P.length + 4)) ∧
    ("# service=git-upload-pack\n".toList).length = 26 ∧
    packetWrite "# service=git-upload-pack\n".toList =
      "001e".toList ++ "# service=git-upload-pack\n".toList := by
  refine ⟨fun P => ⟨packetWrite_eq_lengthField P, ?_, ?_, parseHex_lengthField _⟩, by decide,
    by decide⟩
  · unfold lengthField
    rw [List.length_append, List.length_replicate]
    omega
  · unfold lengthField
    rw [List.length_append, List.length_replicate]
    omega

/-- C5, as stated, fails: for a payload of 65532 bytes the length field has 8 digits, the
output is 8 bytes longer than the payload, and its first 4 bytes encode 1. -/
theorem packetWrite_length_counterexample :
    (packetWrite (List.replicate 65532 'a')).length = 65532 + 8 ∧
    (packetWrite (List.replicate 65532 'a')).length ≠ (List.replicate 65532 'a').length + 4 ∧
    parseHex ((packetWrite (List.replicate 65532 'a')).take 4) = some 1 ∧
    parseHex ((packetWrite (List.replicate 65532 'a')).take 4) ≠
      some (packetWrite (List.replicate 65532 'a')).length := by
  rw [packetWrite_65532]
  have hlen : ("00010000".toList ++ List.replicate 65532 'a').length = 65540 := by
    rw [List.length_append, List.length_replicate]
    rfl
  have htake : ("00010000".toList ++ List.replicate 65532 'a').take 4 = "0001".toList := by
    rfl
  rw [hlen, htake, List.length_replicate]
  refine ⟨rfl, by omega, by decide, ?_⟩
  have : parseHex "0001".toList = some 1 := by decide
  rw [this]
  intro h
  cases h

/-- C5, amended: for every payload `P` with `len(P)+4 < 65536`, the output of `packetWrite`
is 4 bytes longer than `P`, its first 4 bytes are hexadecimal digits that encode the total
byte length of the output, and the bytes after them are `P`. -/
theorem packetWrite_length_of_small (P : GoString) (h : P.length + 4 < 65536) :
    (packetWrite P).length = P.length + 4 ∧
    parseHex ((packetWrite P).take 4) = some (packetWrite P).length ∧
    (packetWrite P).drop 4 = P := by
  have h4 := lengthField_length_small (P.length + 4) (by omega) h
  have hlen : (packetWrite P).length = P.length + 4 := by
    rw [packetWrite_eq_lengthField, List.length_append, h4]
    omega
  refine ⟨hlen, ?_, ?_⟩
  · rw [hlen, packetWrite_eq_lengthField, List.take_left' h4]
    exact parseHex_lengthField _
  · rw [packetWrite_eq_lengthField, List.drop_left' h4]

theorem packetWrite_length_of_small_witness :
    (packetWrite "# service=git-receive-pack\n".toList).length = 27 + 4 ∧
    parseHex ((packetWrite "# service=git-receive-pack\n".toList).take 4) =
      some (packetWrite "# service=git-receive-pack\n".toList).length ∧
    (packetWrite "# service=git-receive-pack\n".toList).drop 4 =
      "# service=git-receive-pack\n".toList :=
  packetWrite_length_of_small "# service=git-receive-pack\n".toList (by decide)

/-! ## The dispatcher -/

/-- The patterns of the model, written out in the regular-expression syntax, are the keys of
the map `services` in `config.go`, and the methods, handlers and RPC names stand next to
them as in the source. -/
theorem services_source :
    services.map (fun e => e.1.source) =
      [ "(.*?)/git-upload-pack$".toList,
        "(.*?)/git-receive-pack$".toList,
        "(.*?)/info/refs$".toList,
        "(.*?)/HEAD$".toList,
        "(.*?)/objects/info/alternates$".toList,
        "(.*?)/objects/info/http-alternates$".toList,
        "(.*?)/objects/info/packs$".toList,
        "(.*?)/objects/info/[^/]*$".toList,
        "(.*?)/objects/[0-9a-f]\x7b2\x7d/[0-9a-f]\x7b38\x7d$".toList,
        "(.*?)/objects/pack/pack-[0-9a-f]\x7b40\x7d\\.pack$".toList,
        "(.*?)/objects/pack/pack-[0-9a-f]\x7b40\x7d\\.idx$".toList ] := by
  decide

theorem requestHandler_no_match (cfg : SmartConfig) (world : World) (w : ResponseWriter)
    (r : Request) (order : List (Pattern × Service))
    (h : ∀ e ∈ order, e.1.FindStringSubmatch r.Path = none) :
    requestHandler cfg world w r order = .respond (renderNotFound w) := by
  induction order with
  | nil => rfl
  | cons e rest ih =>
    obtain ⟨re, service⟩ := e
    have he : re.FindStringSubmatch r.Path = none := h (re, service) (List.mem_cons_self _ _)
    rw [requestHandler, he]
    exact ih (fun e2 h2 => h e2 (List.mem_cons_of_mem _ h2))

theorem requestHandler_first_match (cfg : SmartConfig) (world : World) (w : ResponseWriter)
    (r : Request) (pre post : List (Pattern × Service)) (re : Pattern) (service : Service)
    (m1 : GoString) (hpre : ∀ e ∈ pre, e.1.FindStringSubmatch r.Path = none)
    (hm : re.FindStringSubmatch r.Path = some m1) (hmethod : service.Method ≠ r.Method) :
    requestHandler cfg world w r (pre ++ (re, service) :: post) =
      .respond (renderMethodNotAllowed w r) := by
  induction pre with
  | nil =>
    rw [List.nil_append, requestHandler, hm]
    simp only [ne_eq, hmethod, not_false_eq_true, if_true]
  | cons e rest ih =>
    obtain ⟨re2, service2⟩ := e
    have he : re2.FindStringSubmatch r.Path = none := hpre (re2, service2) (List.mem_cons_self _ _)
    rw [List.cons_append, requestHandler, he]
    exact ih (fun e2 h2 => hpre e2 (List.mem_cons_of_mem _ h2))

theorem requestHandler_all_mismatch (cfg : SmartConfig) (world : World) (w : ResponseWriter)
    (r : Request) (order : List (Pattern × Service))
    (hex : ∃ e ∈ order, (e.1.FindStringSubmatch r.Path).isSome = true)
    (hall : ∀ e ∈ order, (e.1.FindStringSubmatch r.Path).isSome = true → e.2.Method ≠ r.Method) :
    requestHandler cfg world w r order = .respond (renderMethodNotAllowed w r) := by
  induction order with
  | nil =>
    obtain ⟨e, he, _⟩ := hex
    cases he
  | cons e rest ih =>
    obtain ⟨re, service⟩ := e
    cases hfs : re.FindStringSubmatch r.Path with
    | some m1 =>
      have hmethod : service.Method ≠ r.Method :=
        hall (re, service) (List.mem_cons_self _ _) (by simp [hfs])
      rw [requestHandler, hfs]
      simp only [ne_eq, hmethod, not_false_eq_true, if_true]
    | none =>
      rw [requestHandler, hfs]
      apply ih
      · obtain ⟨e2, he2, hs2⟩ := hex
        rcases List.mem_cons.mp he2 with heq | hmem
        · subst heq
          simp [hfs] at hs2
        · exact ⟨e2, hmem, hs2⟩
      · exact fun e2 h2 => hall e2 (List.mem_cons_of_mem _ h2)

theorem renderMethodNotAllowed_status (w : ResponseWriter) (r : Request) (hw : w.wrote = none) :
    (renderMethodNotAllowed w r).status = some (if r.Proto = "HTTP/1.1".toList then 405 else 400) ∧
    (renderMethodNotAllowed w r).body = w.body ++
      (if r.Proto = "HTTP/1.1".toList then "Method Not Allowed".toList else "Bad Request".toList) := by
  unfold renderMethodNotAllowed
  split <;>
    simp [ResponseWriter.Write, ResponseWriter.WriteHeader, ResponseWriter.status, hw]

theorem renderNotFound_status (w : ResponseWriter) (hw : w.wrote = none) :
    (renderNotFound w).status = some 404 ∧ (renderNotFound w).body = w.body ++ "Not Found".toList := by
  unfold renderNotFound
  simp [ResponseWriter.Write, ResponseWriter.WriteHeader, ResponseWriter.status, hw]

/-- C2, as stated, fails: the path `r/objects/info/git-upload-pack` matches the pattern of
`git-upload-pack`, which requires POST; for a GET the dispatcher, ranging over the table in
the reverse of the source order, meets the pattern `/objects/info/[^/]*` first and calls
`getTextFile` instead of answering 405. -/
theorem requestHandler_method_counterexample :
    services.reverse.Perm services ∧
    (⟨[.lit "/git-upload-pack".toList]⟩, ⟨"POST".toList, .serviceRPC, "upload-pack".toList⟩) ∈
      services ∧
    Pattern.FindStringSubmatch ⟨[.lit "/git-upload-pack".toList]⟩
      (plainRequest "GET" "HTTP/1.1" "r/objects/info/git-upload-pack").Path =
      some "r/objects/info".toList ∧
    "POST".toList ≠ (plainRequest "GET" "HTTP/1.1" "r/objects/info/git-upload-pack").Method ∧
    requestHandler smartconfig exampleWorld .new
      (plainRequest "GET" "HTTP/1.1" "r/objects/info/git-upload-pack") services.reverse =
      .invoke .getTextFile
        ⟨.new, plainRequest "GET" "HTTP/1.1" "r/objects/info/git-upload-pack", [],
          "/tmp/r".toList, "objects/info/git-upload-pack".toList⟩ ∧
    requestHandler smartconfig exampleWorld .new
      (plainRequest "GET" "HTTP/1.1" "r/objects/info/git-upload-pack") services.reverse ≠
      .respond (renderMethodNotAllowed .new
        (plainRequest "GET" "HTTP/1.1" "r/objects/info/git-upload-pack")) := by
  refine ⟨List.reverse_perm _, by decide, by decide, by decide, by decide, by decide⟩

/-- C2, amended: for every request and every iteration order of the route table, if the
first pattern in that order that matches the path requires a method other than the
request's (in particular, if every pattern that matches the path does), the dispatcher calls
no handler and answers with `renderMethodNotAllowed`, whose status is 405 when the protocol
is `HTTP/1.1` and 400 otherwise; and if the path matches no pattern it answers by
`renderNotFound`, status 404, whatever the method. -/
theorem requestHandler_method_not_allowed (cfg : SmartConfig) (world : World)
    (w : ResponseWriter) (r : Request) (order : List (Pattern × Service))
    (hperm : order.Perm services) (hw : w.wrote = none) :
    (∀ (pre post : List (Pattern × Service)) (re : Pattern) (service : Service),
      order = pre ++ (re, service) :: post →
      (∀ e ∈ pre, e.1.FindStringSubmatch r.Path = none) →
      (re.FindStringSubmatch r.Path).isSome = true →
      service.Method ≠ r.Method →
      requestHandler cfg world w r order = .respond (renderMethodNotAllowed w r)) ∧
    ((∃ e ∈ services, (e.1.FindStringSubmatch r.Path).isSome = true) →
      (∀ e ∈ services, (e.1.FindStringSubmatch r.Path).isSome = true → e.2.Method ≠ r.Method) →
      requestHandler cfg world w r order = .respond (renderMethodNotAllowed w r)) ∧
    (renderMethodNotAllowed w r).status =
      some (if r.Proto = "HTTP/1.1".toList then 405 else 400) ∧
    ((∀ e ∈ services, e.1.FindStringSubmatch r.Path = none) →
      requestHandler cfg world w r order = .respond (renderNotFound w)) ∧
    (renderNotFound w).status = some 404 := by
  refine ⟨?_, ?_, (renderMethodNotAllowed_status w r hw).1, ?_, (renderNotFound_status w hw).1⟩
  · intro pre post re service hord hpre hm hmethod
    obtain ⟨m1, hm1⟩ := Option.isSome_iff_exists.mp hm
    rw [hord]
    exact requestHandler_first_match cfg world w r pre post re service m1 hpre hm1 hmethod
  · intro hex hall
    apply requestHandler_all_mismatch
    · obtain ⟨e, he, hs⟩ := hex
      exact ⟨e, hperm.mem_iff.mpr he, hs⟩
    · exact fun e he => hall e (hperm.mem_iff.mp he)
  · intro hnone
    exact requestHandler_no_match cfg world w r order
      (fun e he => hnone e (hperm.mem_iff.mp he))

theorem requestHandler_method_not_allowed_witness :
    requestHandler smartconfig exampleWorld .new
        (plainRequest "POST" "HTTP/1.0" "r/objects/info/packs") services.reverse =
      .respond (renderMethodNotAllowed .new (plainRequest "POST" "HTTP/1.0" "r/objects/info/packs")) ∧
    (renderMethodNotAllowed .new (plainRequest "POST" "HTTP/1.0" "r/objects/info/packs")).status =
      some 400 ∧
    requestHandler smartconfig exampleWorld .new
        (plainRequest "GET" "HTTP/1.1" "r/objects/info") services.reverse =
      .respond (renderNotFound .new) :=
  have h := requestHandler_method_not_allowed smartconfig exampleWorld .new
    (plainRequest "POST" "HTTP/1.0" "r/objects/info/packs") services.reverse
    (List.reverse_perm _) rfl
  have h2 := requestHandler_method_not_allowed smartconfig exampleWorld .new
    (plainRequest "GET" "HTTP/1.1" "r/objects/info") services.reverse
    (List.reverse_perm _) rfl
  ⟨h.2.1 (by decide) (by decide), h.2.2.1, h2.2.2.2.1 (by decide)⟩

/-- C3: the code at the path `repo/objects/info/packs`.  Two patterns of `services` match it,
the one of `getInfoPacks` and `/objects/info/[^/]*` of `getTextFile`; a GET is given to
`getInfoPacks` when the table is ranged over in source order and to `getTextFile` in the
reverse order, and the two answer with different cache policies. -/
theorem services_overlap_info_packs :
    services.reverse.Perm services ∧
    (services.filter (fun e =>
      (e.1.FindStringSubmatch "repo/objects/info/packs".toList).isSome)).map (fun e => e.2) =
      [⟨"GET".toList, .getInfoPacks, []⟩, ⟨"GET".toList, .getTextFile, []⟩] ∧
    requestHandler smartconfig exampleWorld .new
      (plainRequest "GET" "HTTP/1.1" "repo/objects/info/packs") services =
      .invoke .getInfoPacks
        ⟨.new, plainRequest "GET" "HTTP/1.1" "repo/objects/info/packs", [],
          "/tmp/repo".toList, "objects/info/packs".toList⟩ ∧
    requestHandler smartconfig exampleWorld .new
      (plainRequest "GET" "HTTP/1.1" "repo/objects/info/packs") services.reverse =
      .invoke .getTextFile
        ⟨.new, plainRequest "GET" "HTTP/1.1" "repo/objects/info/packs", [],
          "/tmp/repo".toList, "objects/info/packs".toList⟩ ∧
    (getInfoPacks exampleWorld
      ⟨.new, plainRequest "GET" "HTTP/1.1" "repo/objects/info/packs", [],
        "/tmp/repo".toList, "objects/info/packs".toList⟩).map
      (fun w => w.sent.Get "Cache-Control".toList) = some "public, max-age=31536000".toList ∧
    (getTextFile exampleWorld
      ⟨.new, plainRequest "GET" "HTTP/1.1" "repo/objects/info/packs", [],
        "/tmp/repo".toList, "objects/info/packs".toList⟩).map
      (fun w => w.sent.Get "Cache-Control".toList) =
      some "no-cache, max-age=0, must-revalidate".toList := by
  refine ⟨List.reverse_perm _, by decide, by decide, by decide, by decide, by decide⟩

/-! ## Auxiliary facts about strings, headers and response writers -/

theorem replaceLoop_zero (old new : GoString) (fuel : Nat) (s : GoString) :
    replaceLoop old new fuel 0 s = s := by
  cases fuel <;> simp [replaceLoop]

theorem getServiceType_stripped (r : Request) (s : GoString)
    (h : r.FormValue "service".toList = "git-".toList ++ s) : getServiceType r = s := by
  have hp : ("git-".toList).isPrefixOf ("git-".toList ++ s) = true := by
    simp
  unfold getServiceType
  simp only [h]
  rw [if_neg (fun hn => hn hp)]
  unfold stringsReplace
  unfold replaceLoop
  rw [if_neg (by decide), if_pos hp]
  show [] ++ replaceLoop _ _ _ (1 - 1) (List.drop ("git-".toList).length ("git-".toList ++ s)) = s
  rw [List.drop_left, List.nil_append]
  exact replaceLoop_zero _ _ _ _

theorem getServiceType_empty (r : Request)
    (h : ("git-".toList).isPrefixOf (r.FormValue "service".toList) = false) :
    getServiceType r = [] := by
  unfold getServiceType
  simp only
  rw [if_pos (by rw [h]; exact Bool.false_ne_true)]

theorem ResponseWriter.wrote_SetHeader (w : ResponseWriter) (k v : GoString) :
    (w.SetHeader k v).wrote = w.wrote := rfl

theorem ResponseWriter.body_SetHeader (w : ResponseWriter) (k v : GoString) :
    (w.SetHeader k v).body = w.body := rfl

theorem ResponseWriter.WriteHeader_of_none (w : ResponseWriter) (code : Nat)
    (h : w.wrote = none) : w.WriteHeader code = { w with wrote := some (code, w.header) } := by
  unfold ResponseWriter.WriteHeader
  rw [h]

theorem ResponseWriter.WriteHeader_of_some (w : ResponseWriter) (code : Nat)
    (p : Nat × Header) (h : w.wrote = some p) : w.WriteHeader code = w := by
  unfold ResponseWriter.WriteHeader
  rw [h]

theorem ResponseWriter.body_Write (w : ResponseWriter) (b : GoString) :
    (w.Write b).body = w.body ++ b := by
  cases hw : w.wrote with
  | none => simp [ResponseWriter.Write, ResponseWriter.WriteHeader_of_none w 200 hw]
  | some p => simp [ResponseWriter.Write, ResponseWriter.WriteHeader_of_some w 200 p hw]

theorem ResponseWriter.wrote_Write_of_some (w : ResponseWriter) (b : GoString)
    (p : Nat × Header) (h : w.wrote = some p) : (w.Write b).wrote = some p := by
  simp [ResponseWriter.Write, ResponseWriter.WriteHeader_of_some w 200 p h, h]

theorem ResponseWriter.wrote_Write_of_none (w : ResponseWriter) (b : GoString)
    (h : w.wrote = none) : (w.Write b).wrote = some (200, w.header) := by
  simp [ResponseWriter.Write, ResponseWriter.WriteHeader_of_none w 200 h]

theorem wrote_hdrNocache (w : ResponseWriter) : (hdrNocache w).wrote = w.wrote := rfl

theorem body_hdrNocache (w : ResponseWriter) : (hdrNocache w).body = w.body := rfl

theorem wrote_hdrCacheForever (world : World) (w : ResponseWriter) :
    (hdrCacheForever world w).wrote = w.wrote := rfl

theorem getInfoRefs_response_gitCommand (cfg : SmartConfig) (world : World) (hr : HandlerReq) :
    (∀ s : GoString,
      hr.r.FormValue "service".toList = "git-".toList ++ s →
      hasAccess cfg world hr.r hr.Dir s false = some true →
      hr.w.wrote = none → hr.w.body = [] →
      ∃ w : ResponseWriter, getInfoRefs cfg world hr = some w ∧ w.status = some 200 ∧
        (hr.r.Header.Get "Git-Protocol".toList = [] →
          w.body = packetWrite ("# service=git-".toList ++ s ++ "\n".toList) ++ "0000".toList ++
            gitCommand cfg world hr.Dir []
              [s, "--stateless-rpc".toList, "--advertise-refs".toList, ".".toList]) ∧
        (hr.r.Header.Get "Git-Protocol".toList ≠ [] →
          w.body = gitCommand cfg world hr.Dir (hr.r.Header.Get "Git-Protocol".toList)
              [s, "--stateless-rpc".toList, "--advertise-refs".toList, ".".toList])) ∧
    (("git-".toList).isPrefixOf (hr.r.FormValue "service".toList) = false →
      getServiceType hr.r = [] ∧
      getInfoRefs cfg world hr =
        sendFile world "text/plain; charset=utf-8".toList { hr with w := hdrNocache hr.w }) := by
  constructor
  · intro s hform haccess hw hbody
    have hst := getServiceType_stripped hr.r s hform
    have hget : getInfoRefs cfg world hr = some
        ((if (hr.r.Header.Get "Git-Protocol".toList).length = 0 then
            ((((hdrNocache hr.w).SetHeader "Content-Type".toList
                ("application/x-git-".toList ++ s ++ "-advertisement".toList)).WriteHeader
              200).Write
              (packetWrite ("# service=git-".toList ++ s ++ "\n".toList))).Write packetFlush
          else ((hdrNocache hr.w).SetHeader "Content-Type".toList
                ("application/x-git-".toList ++ s ++ "-advertisement".toList)).WriteHeader
              200).Write
          (gitCommand cfg world hr.Dir (hr.r.Header.Get "Git-Protocol".toList)
            [s, "--stateless-rpc".toList, "--advertise-refs".toList, ".".toList])) := by
      unfold getInfoRefs
      simp only [hst, haccess, if_true]
    have hw1 : ((hdrNocache hr.w).SetHeader "Content-Type".toList
        ("application/x-git-".toList ++ s ++ "-advertisement".toList)).wrote = none := hw
    have hb1 : ((hdrNocache hr.w).SetHeader "Content-Type".toList
        ("application/x-git-".toList ++ s ++ "-advertisement".toList)).body = [] := hbody
    rw [hget]
    generalize ((hdrNocache hr.w).SetHeader "Content-Type".toList
        ("application/x-git-".toList ++ s ++ "-advertisement".toList)) = w1 at hw1 hb1
    have hw2 : (w1.WriteHeader 200).wrote = some (200, w1.header) := by
      rw [ResponseWriter.WriteHeader_of_none w1 200 hw1]
    have hb2 : (w1.WriteHeader 200).body = [] := by
      rw [ResponseWriter.WriteHeader_of_none w1 200 hw1]
      exact hb1
    generalize w1.WriteHeader 200 = w2 at hw2 hb2
    refine ⟨_, rfl, ?_, ?_, ?_⟩
    · unfold ResponseWriter.status
      split
      · rw [ResponseWriter.wrote_Write_of_some _ _ _
          (ResponseWriter.wrote_Write_of_some _ _ _
            (ResponseWriter.wrote_Write_of_some _ _ _ hw2))]
        rfl
      · rw [ResponseWriter.wrote_Write_of_some _ _ _ hw2]
        rfl
    · intro hv
      rw [hv, if_pos List.length_nil, ResponseWriter.body_Write, ResponseWriter.body_Write,
        ResponseWriter.body_Write, hb2, List.nil_append]
      rfl
    · intro hv
      have hlen : ¬ (hr.r.Header.Get "Git-Protocol".toList).length = 0 := by
        intro h0
        exact hv (List.length_eq_zero.mp h0)
      rw [if_neg hlen, ResponseWriter.body_Write, hb2, List.nil_append]
  · intro hp
    have hst := getServiceType_empty hr.r hp
    refine ⟨hst, ?_⟩
    have hacc : hasAccess cfg world hr.r hr.Dir [] false = some false := by
      unfold hasAccess
      rw [if_neg (by simp), if_pos (by decide)]
    unfold getInfoRefs
    simp only [hst, hacc]
    rfl

theorem gitCommand_without_version (cfg : SmartConfig) (world : World) (dir : GoString)
    (args : List GoString) :
    gitCommand cfg world dir [] args = world.output ⟨cfg.GitBinPath, args, none, dir⟩ := rfl

theorem gitCommand_with_version (cfg : SmartConfig) (world : World) (dir version : GoString)
    (args : List GoString) (h : version ≠ []) :
    gitCommand cfg world dir version args =
      world.output ⟨cfg.GitBinPath, args,
        some (world.environ ++ ["GIT_PROTOCOL=".toList ++ version]), dir⟩ := by
  have hlen : version.length > 0 := List.length_pos.mpr h
  unfold gitCommand gitCommandCmd
  simp only [hlen, if_true]

/-- C6: for every info/refs request whose `service` value is `"git-" ++ s`, with access
granted for `s` and a fresh response writer, `getInfoRefs` returns with status 200.  Without
a `Git-Protocol` value the body is `packetWrite("# service=git-" ++ s ++ "\n")`, then
`"0000"`, then the bytes the subprocess `git s --stateless-rpc --advertise-refs .` printed
when run in the repository directory with the environment of the server; with a non-empty
`Git-Protocol` value `v` the body is the output of the same command run with the environment
of the server plus `GIT_PROTOCOL=v`, and nothing else.  A `service` value without the prefix
`git-` gives the service name `""` and the handler then takes the other branch
(`update-server-info` and `sendFile`). -/
theorem getInfoRefs_smart_response (cfg : SmartConfig) (world : World) (hr : HandlerReq) :
    (∀ s : GoString,
      hr.r.FormValue "service".toList = "git-".toList ++ s →
      hasAccess cfg world hr.r hr.Dir s false = some true →
      hr.w.wrote = none → hr.w.body = [] →
      ∃ w : ResponseWriter, getInfoRefs cfg world hr = some w ∧ w.status = some 200 ∧
        (hr.r.Header.Get "Git-Protocol".toList = [] →
          w.body = packetWrite ("# service=git-".toList ++ s ++ "\n".toList) ++ "0000".toList ++
            world.output ⟨cfg.GitBinPath,
              [s, "--stateless-rpc".toList, "--advertise-refs".toList, ".".toList],
              none, hr.Dir⟩) ∧
        (hr.r.Header.Get "Git-Protocol".toList ≠ [] →
          w.body = world.output ⟨cfg.GitBinPath,
              [s, "--stateless-rpc".toList, "--advertise-refs".toList, ".".toList],
              some (world.environ ++
                ["GIT_PROTOCOL=".toList ++ hr.r.Header.Get "Git-Protocol".toList]),
              hr.Dir⟩)) ∧
    (("git-".toList).isPrefixOf (hr.r.FormValue "service".toList) = false →
      getServiceType hr.r = [] ∧
      getInfoRefs cfg world hr =
        sendFile world "text/plain; charset=utf-8".toList { hr with w := hdrNocache hr.w }) := by
  have h := getInfoRefs_response_gitCommand cfg world hr
  refine ⟨fun s hform haccess hw hbody => ?_, h.2⟩
  obtain ⟨w, hget, hstatus, hb0, hb1⟩ := h.1 s hform haccess hw hbody
  refine ⟨w, hget, hstatus, fun hv => ?_, fun hv => ?_⟩
  · rw [hb0 hv, gitCommand_without_version]
  · rw [hb1 hv, gitCommand_with_version _ _ _ _ _ hv]

theorem getInfoRefs_smart_response_witness :
    ∃ w : ResponseWriter,
      getInfoRefs smartconfig advertisingWorld ⟨.new, infoRefsGet, [], "/tmp/repo".toList,
        "info/refs".toList⟩ = some w ∧ w.status = some 200 ∧
      w.body = "001e# service=git-upload-pack\n0000refs of /tmp/repo: upload-pack\n".toList :=
  have h := (getInfoRefs_smart_response smartconfig advertisingWorld
    ⟨.new, infoRefsGet, [], "/tmp/repo".toList, "info/refs".toList⟩).1
    "upload-pack".toList (by decide) (by decide) rfl rfl
  h.elim (fun w hw => ⟨w, hw.1, hw.2.1, (hw.2.2.1 (by decide)).trans (by decide)⟩)

/-! ## The environment of the git subprocess -/

/-- On the advertisement path the entry is handed over: for every non-empty protocol value,
the environment of the command built by `gitCommand` contains `GIT_PROTOCOL=<value>`. -/
theorem gitCommandCmd_environment (cfg : SmartConfig) (world : World) (dir version : GoString)
    (args : List GoString) (h : version ≠ []) :
    "GIT_PROTOCOL=".toList ++ version ∈
      (gitCommandCmd cfg world dir version args).environment world := by
  have hlen : version.length > 0 := List.length_pos.mpr h
  unfold Cmd.environment gitCommandCmd
  simp only [hlen, if_true]
  exact List.mem_append_right _ (List.mem_singleton.mpr rfl)

/-- C9: the code at a POST of `git-upload-pack` with `Git-Protocol: version=2`.  `serviceRPC`
starts git with `cmd.Env` equal to the empty list it built from `DefaultEnv` and the
credentials, the assignment `cmd.Env = env` having replaced the list that held
`GIT_PROTOCOL=version=2`; on the advertisement path `gitCommand` hands the entry over. -/
theorem serviceRPC_drops_GIT_PROTOCOL :
    hasAccess smartconfig exampleWorld uploadPackPost "/tmp/repo".toList "upload-pack".toList
      true = some true ∧
    uploadPackPost.Header.Get "Git-Protocol".toList = "version=2".toList ∧
    (serviceRPC smartconfig exampleWorld
      ⟨.new, uploadPackPost, "upload-pack".toList, "/tmp/repo".toList,
        "git-upload-pack".toList⟩).map (fun st => st.cmd.map (Cmd.environment exampleWorld)) =
      some (some []) ∧
    "GIT_PROTOCOL=version=2".toList ∈
      (gitCommandCmd smartconfig exampleWorld "/tmp/repo".toList "version=2".toList
        ["upload-pack".toList, "--stateless-rpc".toList, "--advertise-refs".toList,
          ".".toList]).environment exampleWorld := by
  refine ⟨by decide, by decide, by decide, by decide⟩

/-! ## Cache header policy -/

theorem wrapInt64_of_range (x : Int) (h1 : -9223372036854775808 ≤ x)
    (h2 : x < 9223372036854775808) : wrapInt64 x = x := by
  unfold wrapInt64
  omega

theorem retryLoop_all_fail (mirrorErr : Nat → Bool) (bound : Int) (n : Nat)
    (hn : (n : Int) + 1 < 9223372036854775808) (hb1 : bound ≤ (n : Int) + 1)
    (hb2 : 0 < n → bound = (n : Int) + 1) :
    ∀ (d a fuel : Nat) (s : Run), a + d = n → d ≤ fuel →
      (∀ t < d, mirrorErr (s.calls + t) = true) →
      retryLoop mirrorErr bound fuel ((a : Int) + 1) s =
        some ⟨s.Counter, s.calls + d, s.events ++ (List.range' (a + 1) d).flatMap
          (fun i => [Event.sleep (wrapInt64 ((i : Int) * Second)), Event.mirror])⟩ := by
  intro d
  induction d with
  | zero =>
    intro a fuel s ha _ _
    have hcond : ¬ ((a : Int) + 1 < bound) := by omega
    cases fuel with
    | zero => simp [retryLoop, hcond]
    | succ f => simp [retryLoop, hcond]
  | succ d ih =>
    intro a fuel s ha hfuel herr
    obtain ⟨f, rfl⟩ : ∃ f, fuel = f + 1 := ⟨fuel - 1, by omega⟩
    have hcond : (a : Int) + 1 < bound := by
      rw [hb2 (by omega)]
      omega
    have h0 : mirrorErr s.calls = true := by simpa using herr 0 (by omega)
    have hwrap : wrapInt64 ((a : Int) + 1 + 1) = ((a + 1 : Nat) : Int) + 1 := by
      unfold wrapInt64
      omega
    rw [retryLoop]
    simp only [hcond, if_true, Run.mirror, Run.sleep, h0, Bool.true_eq_false, if_false, hwrap]
    rw [ih (a + 1) f _ (by omega) (by omega) (fun t ht => by
      have := herr (t + 1) (by omega)
      simpa [Nat.add_assoc, Nat.add_comm 1 t] using this)]
    simp only [List.range'_succ, List.flatMap_cons, List.append_assoc, Nat.cast_add, Nat.cast_one]
    rw [show s.calls + 1 + d = s.calls + (d + 1) by omega]
    simp only [List.cons_append, List.nil_append]

theorem retryLoop_first_success (mirrorErr : Nat → Bool) (bound : Int) (n : Nat)
    (hn : (n : Int) + 1 < 9223372036854775808) (hb2 : 0 < n → bound = (n : Int) + 1) :
    ∀ (d a fuel : Nat) (s : Run), a + d + 1 ≤ n → d + 1 ≤ fuel →
      (∀ t < d, mirrorErr (s.calls + t) = true) → mirrorErr (s.calls + d) = false →
      retryLoop mirrorErr bound fuel ((a : Int) + 1) s =
        some ⟨s.Counter, s.calls + (d + 1), s.events ++ (List.range' (a + 1) (d + 1)).flatMap
          (fun i => [Event.sleep (wrapInt64 ((i : Int) * Second)), Event.mirror])⟩ := by
  intro d
  induction d with
  | zero =>
    intro a fuel s ha hfuel _ hok
    obtain ⟨f, rfl⟩ : ∃ f, fuel = f + 1 := ⟨fuel - 1, by omega⟩
    have hcond : (a : Int) + 1 < bound := by
      rw [hb2 (by omega)]
      omega
    have h0 : mirrorErr s.calls = false := by simpa using hok
    rw [retryLoop]
    simp [hcond, Run.mirror, Run.sleep, h0]
  | succ d ih =>
    intro a fuel s ha hfuel herr hok
    obtain ⟨f, rfl⟩ : ∃ f, fuel = f + 1 := ⟨fuel - 1, by omega⟩
    have hcond : (a : Int) + 1 < bound := by
      rw [hb2 (by omega)]
      omega
    have h0 : mirrorErr s.calls = true := by simpa using herr 0 (by omega)
    have hwrap : wrapInt64 ((a : Int) + 1 + 1) = ((a + 1 : Nat) : Int) + 1 := by
      unfold wrapInt64
      omega
    rw [retryLoop]
    simp only [hcond, if_true, Run.mirror, Run.sleep, h0, Bool.true_eq_false, if_false, hwrap]
    rw [ih (a + 1) f _ (by omega) (by omega) (fun t ht => by
      have := herr (t + 1) (by omega)
      simpa [Nat.add_assoc, Nat.add_comm 1 t] using this) (by
      simpa [Nat.add_assoc, Nat.add_comm 1 d] using hok)]
    simp only [List.range'_succ, List.flatMap_cons, List.append_assoc, Nat.cast_add, Nat.cast_one]
    rw [show s.calls + 1 + (d + 1) = s.calls + (d + 1 + 1) by omega]
    simp only [List.cons_append, List.nil_append]

theorem iteration_all_fail (Retries interval : Int) (mirrorErr : Nat → Bool) (fuel : Nat)
    (s : Run) (hR0 : -9223372036854775808 ≤ Retries) (hR1 : Retries + 1 < 9223372036854775808)
    (hC0 : 0 < s.Counter) (hC1 : s.Counter < 9223372036854775808)
    (hfuel : Retries.toNat ≤ fuel)
    (herr : ∀ k ≤ Retries.toNat, mirrorErr (s.calls + k) = true) :
    iteration Retries interval mirrorErr fuel s =
      some ⟨s.Counter, s.calls + (Retries.toNat + 1),
        s.events ++ [.mirror] ++ retryEvents Retries.toNat ++ [.sleep interval]⟩ := by
  have hw1 : wrapInt64 (s.Counter - 1) = s.Counter - 1 := wrapInt64_of_range _ (by omega) (by omega)
  have hw2 : wrapInt64 (s.Counter - 1 + 1) = s.Counter := by
    rw [wrapInt64_of_range _ (by omega) (by omega)]
    omega
  have hw3 : wrapInt64 (Retries + 1) = Retries + 1 := wrapInt64_of_range _ (by omega) hR1
  have h0 : mirrorErr s.calls = true := by simpa using herr 0 (by omega)
  have hloop := retryLoop_all_fail mirrorErr (Retries + 1) Retries.toNat (by omega) (by omega)
    (by omega) Retries.toNat 0 fuel
    ⟨s.Counter - 1, s.calls + 1, s.events ++ [.mirror]⟩ (by omega) hfuel (fun t ht => by
      have := herr (t + 1) (by omega)
      simpa [Nat.add_assoc, Nat.add_comm 1 t] using this)
  simp only [Nat.cast_zero, Int.zero_add, Nat.zero_add] at hloop
  unfold iteration
  simp only [hC0, if_true, Run.mirror, h0, hw1, hw3, hloop, Run.sleep, hw2, retryEvents]
  simp only [List.append_assoc, Nat.add_assoc, Nat.add_comm 1]

theorem iteration_first_success (Retries interval : Int) (mirrorErr : Nat → Bool) (fuel : Nat)
    (s : Run) (hR0 : -9223372036854775808 ≤ Retries) (hR1 : Retries + 1 < 9223372036854775808)
    (hC0 : 0 < s.Counter) (hC1 : s.Counter < 9223372036854775808)
    (hfuel : Retries.toNat ≤ fuel) (k : Nat) (hk : k ≤ Retries.toNat)
    (herr : ∀ j < k, mirrorErr (s.calls + j) = true) (hok : mirrorErr (s.calls + k) = false) :
    iteration Retries interval mirrorErr fuel s =
      some ⟨s.Counter, s.calls + (k + 1),
        s.events ++ [.mirror] ++ retryEvents k ++ [.sleep interval]⟩ := by
  have hw1 : wrapInt64 (s.Counter - 1) = s.Counter - 1 := wrapInt64_of_range _ (by omega) (by omega)
  have hw2 : wrapInt64 (s.Counter - 1 + 1) = s.Counter := by
    rw [wrapInt64_of_range _ (by omega) (by omega)]
    omega
  have hw3 : wrapInt64 (Retries + 1) = Retries + 1 := wrapInt64_of_range _ (by omega) hR1
  cases k with
  | zero =>
    have h0 : mirrorErr s.calls = false := by simpa using hok
    have hw4 : wrapInt64 s.Counter = s.Counter := wrapInt64_of_range _ (by omega) hC1
    unfold iteration
    simp only [hC0, if_true, Run.mirror, h0, hw1, Run.sleep, hw2, retryEvents]
    simp [hw4]
  | succ d =>
    have h0 : mirrorErr s.calls = true := by simpa using herr 0 (by omega)
    have hloop := retryLoop_first_success mirrorErr (Retries + 1) Retries.toNat (by omega)
      (by omega) d 0 fuel
      ⟨s.Counter - 1, s.calls + 1, s.events ++ [.mirror]⟩ (by omega) (by omega) (fun t ht => by
        have := herr (t + 1) (by omega)
        simpa [Nat.add_assoc, Nat.add_comm 1 t] using this) (by
        simpa [Nat.add_assoc, Nat.add_comm 1 d] using hok)
    simp only [Nat.cast_zero, Int.zero_add, Nat.zero_add] at hloop
    unfold iteration
    simp only [hC0, if_true, Run.mirror, h0, hw1, hw3, hloop, Run.sleep, hw2, retryEvents]
    simp only [List.append_assoc, Nat.add_assoc, Nat.add_comm 1]

/-- C7, as stated, fails: with `Retries = -1` and a mirror update that always fails, `mirror`
is called once, not `Retries + 1 = 0` times; and with `Retries = 9223372036854775807` the
bound `Retries+1` wraps around to the least `int`, so that no retry at all is made. -/
theorem iteration_retry_counterexample :
    iteration (-1) 7 (fun _ => true) 0 ⟨4, 0, []⟩ = some ⟨4, 1, [.mirror, .sleep 7]⟩ ∧
    (iteration (-1) 7 (fun _ => true) 0 ⟨4, 0, []⟩).map (fun s => (s.calls : Int)) ≠
      some (-1 + 1) ∧
    iteration 9223372036854775807 7 (fun _ => true) 0 ⟨4, 0, []⟩ =
      some ⟨4, 1, [.mirror, .sleep 7]⟩ ∧
    (iteration 9223372036854775807 7 (fun _ => true) 0 ⟨4, 0, []⟩).map
      (fun s => (s.calls : Int)) ≠ some (9223372036854775807 + 1) := by
  refine ⟨by decide, by decide, by decide, by decide⟩

/-- C7, amended: in one iteration of a refresh loop that starts with `0 < Counter`, for a
retry limit `Retries` such that `Retries+1` does not overflow, and with `n = max(Retries, 0)`:
if the first update and every retry fail, `mirror` is called exactly `n+1` times, the retries
`1..n` each preceded by `time.Sleep(time.Duration(i) * time.Second)`; if call number `k ≤ n`
is the first to succeed (`k = 0` being the first update), exactly `k` retries are made and
none after it.  In each case the iteration ends, `Counter` is back to its value before the
iteration, and the last event is the sleep of the repository's interval.  The sleep before
retry `i` is `i` seconds for every `i ≤ 9223372036`. -/
theorem iteration_retry_bound (Retries interval : Int) (mirrorErr : Nat → Bool) (fuel : Nat)
    (s : Run) (hR0 : -9223372036854775808 ≤ Retries) (hR1 : Retries + 1 < 9223372036854775808)
    (hC0 : 0 < s.Counter) (hC1 : s.Counter < 9223372036854775808)
    (hfuel : Retries.toNat ≤ fuel) :
    ((∀ k ≤ Retries.toNat, mirrorErr (s.calls + k) = true) →
      iteration Retries interval mirrorErr fuel s =
        some ⟨s.Counter, s.calls + (Retries.toNat + 1),
          s.events ++ [.mirror] ++ retryEvents Retries.toNat ++ [.sleep interval]⟩) ∧
    (∀ k ≤ Retries.toNat, (∀ j < k, mirrorErr (s.calls + j) = true) →
      mirrorErr (s.calls + k) = false →
      iteration Retries interval mirrorErr fuel s =
        some ⟨s.Counter, s.calls + (k + 1),
          s.events ++ [.mirror] ++ retryEvents k ++ [.sleep interval]⟩) ∧
    (∀ k : Nat, (retryEvents k).length = 2 * k ∧ (retryEvents k).count .mirror = k) ∧
    (∀ i : Nat, i ≤ 9223372036 → wrapInt64 ((i : Int) * Second) = (i : Int) * 1000000000) := by
  refine ⟨iteration_all_fail Retries interval mirrorErr fuel s hR0 hR1 hC0 hC1 hfuel,
    fun k hk herr hok =>
      iteration_first_success Retries interval mirrorErr fuel s hR0 hR1 hC0 hC1 hfuel k hk herr hok,
    ?_, ?_⟩
  · have aux : ∀ (k a : Nat),
        ((List.range' a k).flatMap (fun i =>
          [Event.sleep (wrapInt64 ((i : Int) * Second)), Event.mirror])).length = 2 * k ∧
        ((List.range' a k).flatMap (fun i =>
          [Event.sleep (wrapInt64 ((i : Int) * Second)), Event.mirror])).count .mirror = k := by
      intro k
      induction k with
      | zero => intro a; simp
      | succ k ih =>
        intro a
        rw [List.range'_succ, List.flatMap_cons, List.length_append, List.count_append,
          (ih (a + 1)).1, (ih (a + 1)).2]
        constructor
        · simp only [List.length_cons, List.length_nil]
          omega
        · simp [List.count_cons]
          omega
    exact fun k => aux k 1
  · intro i hi
    unfold Second
    exact wrapInt64_of_range _ (by omega) (by omega)

theorem iteration_retry_bound_witness :
    iteration 3 7 (fun _ => true) 3 ⟨4, 0, []⟩ =
      some ⟨4, 4, [.mirror, .sleep 1000000000, .mirror, .sleep 2000000000, .mirror,
        .sleep 3000000000, .mirror, .sleep 7]⟩ ∧
    iteration 3 7 (fun k => decide (k < 2)) 3 ⟨4, 0, []⟩ =
      some ⟨4, 3, [.mirror, .sleep 1000000000, .mirror, .sleep 2000000000, .mirror,
        .sleep 7]⟩ :=
  ⟨(iteration_retry_bound 3 7 (fun _ => true) 3 ⟨4, 0, []⟩ (by decide) (by decide) (by decide)
      (by decide) (by decide)).1 (fun _ _ => rfl),
    (iteration_retry_bound 3 7 (fun k => decide (k < 2)) 3 ⟨4, 0, []⟩ (by decide) (by decide)
      (by decide) (by decide) (by decide)).2.1 2 (by decide) (by decide) (by decide)⟩

/-! ## The shared counter -/

theorem count_working_set (l : List Pc) (x y : Pc) :
    ∀ j : Nat, l.get? j = some x →
      ((l.set j y).count .working : Int) + (if x = .working then 1 else 0) =
        (l.count .working : Int) + (if y = .working then 1 else 0) := by
  induction l with
  | nil => intro j h; cases h
  | cons a l ih =>
    intro j h
    cases j with
    | zero =>
      simp only [List.get?, Option.some.injEq] at h
      subst h
      simp only [List.set_cons_zero, List.count_cons, beq_iff_eq]
      push_cast
      omega
    | succ j =>
      simp only [List.get?] at h
      have := ih j h
      simp only [List.set_cons_succ, List.count_cons]
      push_cast
      omega

theorem Sched.step_invariant (s : Sched) (j : Nat) :
    (s.step j).Counter + ((s.step j).inProgress : Int) = s.Counter + (s.inProgress : Int) := by
  unfold Sched.step Sched.inProgress
  cases h : s.pcs.get? j with
  | none => rfl
  | some pc =>
    cases pc with
    | idle =>
      by_cases hc : s.Counter > 0
      · have := count_working_set s.pcs .idle .tested j h
        simp only [hc, if_true]
        simp at this
        omega
      · simp only [hc, if_false]
    | tested =>
      have := count_working_set s.pcs .tested .working j h
      simp at this
      simp only
      omega
    | working =>
      have := count_working_set s.pcs .working .idle j h
      simp at this
      simp only
      omega

theorem Sched.run_invariant (schedule : List Nat) :
    ∀ s : Sched, (s.run schedule).Counter + ((s.run schedule).inProgress : Int) =
      s.Counter + (s.inProgress : Int) := by
  induction schedule with
  | nil => intro s; rfl
  | cons j rest ih =>
    intro s
    show ((s.step j).run rest).Counter + (((s.step j).run rest).inProgress : Int) = _
    rw [ih (s.step j), Sched.step_invariant]

/-- The part of the budget property that the code does keep, for every budget, number of
repositories and schedule: `Counter` plus the number of refreshes in progress is the budget,
so `Counter` never exceeds the budget and is the budget again when no refresh is in
progress. -/
theorem Sched.counter_add_inProgress (budget : Int) (repos : Nat) (schedule : List Nat) :
    ((Sched.init budget repos).run schedule).Counter +
        (((Sched.init budget repos).run schedule).inProgress : Int) = budget ∧
    ((Sched.init budget repos).run schedule).Counter ≤ budget ∧
    (((Sched.init budget repos).run schedule).inProgress = 0 →
      ((Sched.init budget repos).run schedule).Counter = budget) := by
  have h := Sched.run_invariant schedule (Sched.init budget repos)
  have h0 : (Sched.init budget repos).inProgress = 0 := by
    unfold Sched.init Sched.inProgress
    simp [List.count_replicate]
  have h1 : (Sched.init budget repos).Counter = budget := rfl
  rw [h0, h1] at h
  simp only [Nat.cast_zero, Int.add_zero] at h
  refine ⟨h, by omega, fun hz => ?_⟩
  rw [hz] at h
  simpa using h

/-- C8: the code with a budget of 1 and two repositories.  Both goroutines pass the test
`Counter > 0` before either executes `Counter--`; after the two decrements `Counter` is -1
and two refreshes are in progress. -/
theorem Sched.counter_race :
    (Sched.init 1 2).run [0, 1] = ⟨1, [.tested, .tested]⟩ ∧
    (Sched.init 1 2).run [0, 1, 0, 1] = ⟨-1, [.working, .working]⟩ ∧
    ((Sched.init 1 2).run [0, 1, 0, 1]).Counter < 0 ∧
    ((Sched.init 1 2).run [0, 1, 0, 1]).inProgress = 2 := by
  refine ⟨by decide, by decide, by decide, by decide⟩

end GitMirror
